import Mathlib

/-!
Verification of the client-workerpool coordination layer.

The JavaScript sources (ThreadPool.js, RemoteAwareMixin.js, ListenerAwareMixin.js,
RemoteWorker.js, WorkerPool.js) are shallowly embedded below.  Message payloads
become an explicit record of optional fields, JS objects used as maps become
association lists with JS property semantics (insertion order, string keys,
`undefined` coercion), and the observable actions of a run (posting on a channel,
settling a promise, invoking a listener) are collected as an explicit effect list.
Re-entrant message handling is driven by a fuel parameter standing for the JS call
stack; exhausting it models a stack overflow and is never reached in the runs
proved below.
-/

/-- A JavaScript value, as far as the pool protocol inspects one.  `errorObj`
is a live `Error` instance (truthy, JSON-serializes to a plain empty object);
`emptyObj` is an object with no JSON-visible fields. -/
inductive JsValue where
  | undefined
  | null
  | bool (b : Bool)
  | num (n : Int)
  | str (s : String)
  | arr (elems : List JsValue)
  | errorObj (message : String)
  | emptyObj
deriving Repr

/-- JS truthiness of a value (NaN is not modelled; no claim needs it). -/
def jsTruthy : JsValue → Bool
  | .undefined => false
  | .null => false
  | .bool b => b
  | .num n => n != 0
  | .str s => s != ""
  | .arr _ => true
  | .errorObj _ => true
  | .emptyObj => true

/-- Truthiness of a message field that is either absent (undefined/null) or a
string: null, undefined and the empty string are all falsy. -/
def strTruthy : Option String → Bool
  | some s => s != ""
  | none => false

/-- Truthiness of a message field holding an arbitrary value. -/
def valTruthy (o : Option JsValue) : Bool :=
  jsTruthy (o.getD .undefined)

/-- A JS property key: property access coerces `undefined` to the string
key "undefined" (`obj[undefined]` reads `obj["undefined"]`), which is also
what the `in` operator does. -/
def jsKey : Option String → String
  | some s => s
  | none => "undefined"

/-- The value a registered command handler receives as its first argument
(`this.commands[cmd].call(null, thread, ...args)`): the raw `thread` field. -/
def optStrVal : Option String → JsValue
  | some s => .str s
  | none => .undefined

/-- `obj[k]` on a plain JS object modelled as an insertion-ordered
association list. -/
def objGet {α : Type} (m : List (String × α)) (k : String) : Option α :=
  (m.find? fun p => p.1 == k).map Prod.snd

/-- `obj[k] = v`: overwriting an existing key keeps its position, a new key
is appended (JS string-keyed property order). -/
def objSet {α : Type} (m : List (String × α)) (k : String) (v : α) : List (String × α) :=
  if (objGet m k).isSome then
    m.map fun p => if p.1 == k then (k, v) else p
  else
    m ++ [(k, v)]

/-- `delete obj[k]`. -/
def objDelete {α : Type} (m : List (String × α)) (k : String) : List (String × α) :=
  m.filter fun p => p.1 != k

/-- Unary rendering of a counter value; used to model the monotonic counter
inside the unique-id generator with a provably injective encoding. -/
def unaryRepr : Nat → String
  | 0 => ""
  | n + 1 => "1" ++ unaryRepr n

/-- RemoteWorker.js `getUniqueId`: `++uniqueId + '.' + Date.now() + '.' +
(performance ? performance.now() : Math.random()) + '.' + Math.random()`.
The wall-clock, high-resolution-timer and random components only harden
uniqueness and are modelled as constants; the strictly increasing counter is
what uniqueness rests on, rendered injectively. -/
def getUniqueId (counter : Nat) : String :=
  unaryRepr (counter + 1) ++ ".t.p.r"

/-- The fields of a message payload that the state machines inspect
(ThreadPool.messageListener precedence order plus the configuration-push
field the cluster actually broadcasts).  `none` is an absent field. -/
structure MsgData where
  ident : Option String := none
  remote : Option String := none
  terminate : Bool := false
  listen : Option String := none
  cmd : Option String := none
  args : List JsValue := []
  thread : Option String := none
  callbackId : Option String := none
  returnId : Option String := none
  data : Option JsValue := none
  error : Option JsValue := none
  previousEvent : Option JsValue := none
  setHttpAuth : Option String := none
  setHttpAccessToken : Option String := none
  setHttpAuthorization : Option String := none
deriving Repr

/-- A MessageEvent: payload plus the transferred MessagePorts (modelled as
numeric endpoint tags). -/
structure MessageEvent where
  data : MsgData
  ports : List Nat := []
deriving Repr

/-- A registered inbound-message listener: it either returns or throws. -/
abbrev ListenerFn : Type := MessageEvent → Except String Unit

/-- A registered command handler, called with (thread, ...args).  Handlers in
the claims are pure; the returned value is what the settled promise carries. -/
abbrev CommandHandler : Type := JsValue → List JsValue → JsValue

/-- One observable action of a run. -/
inductive Effect where
  | postMaster (data : MsgData)
  | postPort (port : Nat) (data : MsgData)
  | postWorker (workerId : String) (data : MsgData) (ports : List Nat)
  | deleteCallback (callbackId : String)
  | resolve (callbackId : String) (value : JsValue)
  | reject (callbackId : String) (error : JsValue)
  | invokeListener (listenerId : String) (evt : MessageEvent)
deriving Repr

/-- JSON round trip of a value (`JSON.parse(JSON.stringify(v))`): a live Error
has no JSON-visible own fields and becomes a plain empty object; `undefined`
array elements become null. -/
def jsonCleanVal : JsValue → JsValue
  | .arr xs => .arr (xs.attach.map fun x =>
      match jsonCleanVal x.1 with
      | .undefined => .null
      | v => v)
  | .errorObj _ => .emptyObj
  | v => v
decreasing_by
  have h := List.sizeOf_lt_of_mem x.2
  simp only [JsValue.arr.sizeOf_spec]
  omega

/-- JSON round trip of an optional field: a field holding `undefined` is
dropped entirely. -/
def jsonCleanOpt (o : Option JsValue) : Option JsValue :=
  match o with
  | none => none
  | some v =>
    match jsonCleanVal v with
    | .undefined => none
    | v2 => some v2

/-- JSON round trip of a whole payload (string/boolean fields survive
unchanged; value-carrying fields are cleaned). -/
def jsonCleanData (d : MsgData) : MsgData :=
  { d with
    args := d.args.map fun x =>
      match jsonCleanVal x with
      | .undefined => .null
      | v => v,
    data := jsonCleanOpt d.data,
    error := jsonCleanOpt d.error,
    previousEvent := jsonCleanOpt d.previousEvent }

/-- The condition under which sendMessageToMaster deep-copies the payload:
`!transferable || transferable.length === 0`.  A non-array transferable has an
undefined `.length` (not strictly equal to 0), an empty string has length 0. -/
def jsonCopyCond (t : JsValue) : Bool :=
  !(jsTruthy t) ||
    (match t with
     | .arr [] => true
     | .str "" => true
     | _ => false)

/-- Error text of destructuring a non-iterable value: `const [a, b] = v` with
`v` not an array, string or other iterable throws a TypeError. -/
def destructureErrMsg : String := "TypeError: value is not iterable"

/-- `const [a, b] = v`.  Arrays destructure positionally; strings are iterable
in JS and yield their characters; everything else throws a TypeError. -/
def jsDestructure2 : JsValue → Except String (JsValue × JsValue)
  | .arr xs => .ok (xs.getD 0 .undefined, xs.getD 1 .undefined)
  | .str s =>
    .ok ((s.data.get? 0).elim JsValue.undefined fun c => .str (String.mk [c]),
         (s.data.get? 1).elim JsValue.undefined fun c => .str (String.mk [c]))
  | _ => .error destructureErrMsg

/-- ListenerAwareMixin.executeMessageListeners:
`for (const idx in this.listeners) { const listener = this.listeners[idx];
listener.call(listener, evt); }` — listener ids are non-index string keys, so
for...in follows insertion (registration) order.  There is no try/catch: the
result pairs the invocations that happened with the first exception, which
propagates to the caller. -/
def executeMessageListeners (listeners : List (String × ListenerFn)) (evt : MessageEvent) :
    List Effect × Option String :=
  match listeners with
  | [] => ([], none)
  | (idx, fn) :: rest =>
    match fn evt with
    | .ok _ =>
      let r := executeMessageListeners rest evt
      (.invokeListener idx evt :: r.1, r.2)
    | .error msg => ([.invokeListener idx evt], some msg)

/-- RemoteAwareMixin: the master thread id. -/
def MASTER_THREAD : String := "master"

/-- RemoteAwareMixin.isMasterThread: `threadKey === MASTER_THREAD`. -/
def isMasterThread (threadKey : Option String) : Bool :=
  threadKey == some MASTER_THREAD

/-- RemoteAwareMixin.isThisThread: `threadKey === this.id`.  The two absent
values that can reach this comparison are `undefined` (a missing lookup) on
the key side and `null` (an unassigned id) on the id side, which are never
strictly equal, so only two present strings can compare equal. -/
def isThisThread (selfId threadKey : Option String) : Bool :=
  match selfId, threadKey with
  | some a, some b => a == b
  | _, _ => false

/-- RemoteAwareMixin.getNextRemoteKey: reads `Object.keys(this.remotes)` at the
current cursor (undefined when out of range), then advances the cursor,
resetting to 0 when `this.remoteKey >= keys.length - 1` (JS arithmetic: for an
empty key list the bound is -1 and the cursor always resets). -/
def getNextRemoteKey {ρ : Type} (remotes : List (String × ρ)) (remoteKey : Nat) :
    Option String × Nat :=
  let keys := remotes.map Prod.fst
  (keys.get? remoteKey,
   if (remoteKey : Int) ≥ (keys.length : Int) - 1 then 0 else remoteKey + 1)

/-- RemoteAwareMixin.hasRemotes: `return this.remotes.length !== 0`.
`this.remotes` is a plain object mapping sibling id to MessagePort, not an
array: `.length` is `undefined` unless some sibling id is literally the string
"length", in which case it is a MessagePort.  Neither `undefined` nor a
MessagePort is strictly equal to the number 0, so the comparison holds in
both cases. -/
def hasRemotes {ρ : Type} (remotes : List (String × ρ)) : Bool :=
  match objGet remotes "length" with
  | none => true
  | some _ => true

/-- RemoteAwareMixin.registerCallbackId: stores a fresh pending promise under
the callback id (`this.callbacks[callbackId] = promise`); re-using a key would
overwrite in place, keeping its position. -/
def registerCallbackId (callbacks : List String) (callbackId : String) : List String :=
  if callbacks.contains callbackId then callbacks else callbacks ++ [callbackId]

/-- RemoteAwareMixin.receiveCommandResult: when the correlation id is pending,
the entry is nulled and deleted first, and only then is the promise rejected
(truthy `error` field) or resolved (with the `data` field); an unknown id
falls through with no state change and no exception. -/
def receiveCommandResult (callbacks : List String) (evt : MessageEvent) :
    List String × List Effect :=
  let returnId := jsKey evt.data.returnId
  if callbacks.contains returnId then
    (callbacks.erase returnId,
     [Effect.deleteCallback returnId,
      if valTruthy evt.data.error then
        Effect.reject returnId (evt.data.error.getD .undefined)
      else
        Effect.resolve returnId (evt.data.data.getD .undefined)])
  else
    (callbacks, [])

/-- ThreadPool.js state: the coordinator running inside one worker.  `gen` is
the worker realm module counter behind getUniqueId (each worker is its own JS
realm, so each coordinator has its own counter). -/
structure ThreadPool where
  id : Option String := none
  httpAuth : Option String := none
  httpAccessToken : Option String := none
  ports : List (String × Nat) := []
  commands : List (String × CommandHandler) := []
  remotes : List (String × Nat) := []
  callbacks : List String := []
  remoteKey : Nat := 0
  listeners : List (String × ListenerFn) := []
  gen : Nat := 0

/-- The argument executeCommand actually receives: normally a MessageEvent;
the local-execution branch of sendCommand instead passes the plain command
object itself, whose `.data` property is undefined. -/
inductive CmdEvt where
  | fromEvent (evt : MessageEvent)
  | fromObject (d : MsgData)

/-- ThreadPool.ident: `this.id = evt.data.ident`. -/
def ThreadPool.ident (tp : ThreadPool) (evt : MessageEvent) : ThreadPool :=
  { tp with id := evt.data.ident }

/-- ThreadPool.remoteIdent: with the terminate flag the sibling entry is
deleted; otherwise the delivered port is stored under the announced sibling id
and started (`evt.ports[0].start()` throws when no port was transferred). -/
def ThreadPool.remoteIdent (tp : ThreadPool) (evt : MessageEvent) : Except String ThreadPool :=
  if evt.data.terminate then
    .ok { tp with remotes := objDelete tp.remotes (jsKey evt.data.remote) }
  else
    match evt.ports.get? 0 with
    | some p => .ok { tp with remotes := objSet tp.remotes (jsKey evt.data.remote) p }
    | none => .error "TypeError: evt.ports 0 is undefined"

/-- ThreadPool.remotePortIdent: stores the delivered channel endpoint under
the originating sibling id and attaches this unit.s message/error listeners to
it (re-entry of port messages into messageListener happens at delivery). -/
def ThreadPool.remotePortIdent (tp : ThreadPool) (evt : MessageEvent) : Except String ThreadPool :=
  match evt.ports.get? 0 with
  | some p => .ok { tp with ports := objSet tp.ports (jsKey evt.data.listen) p }
  | none => .error "TypeError: evt.ports 0 is undefined"

/-- ThreadPool.setHttpAuthorization: `this.httpAuth = auth`. -/
def ThreadPool.setHttpAuthorization (tp : ThreadPool) (auth : Option String) : ThreadPool :=
  { tp with httpAuth := auth }

/-- ThreadPool.setHttpAccessToken: `this.httpAccessToken = accessToken`. -/
def ThreadPool.setHttpAccessToken (tp : ThreadPool) (accessToken : Option String) : ThreadPool :=
  { tp with httpAccessToken := accessToken }

/-- What a JS engine raises when re-entrant message handling recurses without
bound; the fuel argument below stands for the remaining call stack. -/
def stackOverflowMsg : String := "RangeError: maximum call stack size exceeded"

/-- One re-entrant call on the worker coordinator: the three methods of
ThreadPool.js that can call each other (messageListener dispatching a command,
executeCommand replying, sendMessageToRemote looping back locally) are run by
the single interpreter below, structurally recursive on the remaining call
stack. -/
inductive TPCall where
  | messageListener (evt : MessageEvent)
  | executeCommand (ce : CmdEvt)
  | sendMessageToRemote (threadId : Option String) (data : MsgData) (transfer : JsValue)

/-- Interpreter for the three mutually re-entrant ThreadPool.js methods; the
Bool carries sendMessageToRemote.s sent flag (the other calls report true).

messageListener: the message-type state machine.  Every inbound payload is
dispatched on the first truthy field, in source order: ident, remote, listen,
cmd, returnId, setHttpAccessToken, setHttpAuth; anything else goes to the
generic listeners (whose exceptions propagate — no try/catch on this path).

executeCommand: destructures `evt.data` (throwing when handed the plain
object from sendCommand.s local branch, whose `.data` is undefined); an
unregistered name is answered with a Command-Not-Found error; otherwise the
handler runs with (thread, ...args), its settled value is destructured as
`[data, transferable]` — a non-iterable return value therefore lands in the
catch branch — and the response is sent back to the sender field.

sendMessageToRemote: stamps `data.thread = this.id`, then routes: the master
id goes straight to the spawning context (sendMessageToMaster, deep-copying
unless a non-empty transfer list is given); this unit.s own id — or any
target when hasRemotes() is false — loops the payload synchronously back
into messageListener; anything else goes through the mixin, which returns
false for an unknown sibling id and otherwise re-stamps the sender,
deep-copies, and posts on the sibling.s channel. -/
def tpRun : Nat → ThreadPool → TPCall → Except String (ThreadPool × Bool × List Effect)
  | 0, _, _ => .error stackOverflowMsg
  | fuel + 1, tp, .messageListener evt =>
    if strTruthy evt.data.ident then
      .ok (tp.ident evt, true, [])
    else if strTruthy evt.data.remote then do
      let tp2 ← tp.remoteIdent evt
      .ok (tp2, true, [])
    else if strTruthy evt.data.listen then do
      let tp2 ← tp.remotePortIdent evt
      .ok (tp2, true, [])
    else if strTruthy evt.data.cmd then
      tpRun fuel tp (.executeCommand (.fromEvent evt))
    else if strTruthy evt.data.returnId then
      let r := receiveCommandResult tp.callbacks evt
      .ok ({ tp with callbacks := r.1 }, true, r.2)
    else if strTruthy evt.data.setHttpAccessToken then
      .ok (tp.setHttpAccessToken evt.data.setHttpAccessToken, true, [])
    else if strTruthy evt.data.setHttpAuth then
      .ok (tp.setHttpAuthorization evt.data.setHttpAuth, true, [])
    else
      let r := executeMessageListeners tp.listeners evt
      match r.2 with
      | none => .ok (tp, true, r.1)
      | some m => .error m
  | fuel + 1, tp, .executeCommand ce =>
    match ce with
    | .fromObject _ => .error "TypeError: cannot destructure evt.data because it is undefined"
    | .fromEvent evt =>
      let cmd := jsKey evt.data.cmd
      let args := evt.data.args
      let thread := evt.data.thread
      let callbackId := evt.data.callbackId
      match objGet tp.commands cmd with
      | none => do
        let r ← tpRun fuel tp (.sendMessageToRemote thread
          { returnId := callbackId,
            error := some (.errorObj ("Command not found: " ++ cmd)) } .undefined)
        .ok (r.1, true, r.2.2)
      | some handler =>
        let response := handler (optStrVal thread) args
        match jsDestructure2 response with
        | .ok dt => do
          let r ← tpRun fuel tp (.sendMessageToRemote thread
            { data := some dt.1, returnId := callbackId } dt.2)
          .ok (r.1, true, r.2.2)
        | .error msg => do
          let r ← tpRun fuel tp (.sendMessageToRemote thread
            { error := some (.str msg), returnId := callbackId,
              previousEvent := some .emptyObj } .undefined)
          .ok (r.1, true, r.2.2)
  | fuel + 1, tp, .sendMessageToRemote threadId data0 transfer =>
    let data := { data0 with thread := tp.id }
    if isMasterThread threadId then
      .ok (tp, true, [.postMaster (if jsonCopyCond transfer then jsonCleanData data else data)])
    else if isThisThread tp.id threadId || !(hasRemotes tp.remotes) then do
      let r ← tpRun fuel tp (.messageListener { data := data, ports := [] })
      .ok (r.1, true, r.2.2)
    else
      match objGet tp.remotes (jsKey threadId) with
      | some port =>
        .ok (tp, true, [.postPort port (jsonCleanData { data with thread := tp.id })])
      | none => .ok (tp, false, [])

/-- ThreadPool.messageListener (see tpRun). -/
def ThreadPool.messageListener (fuel : Nat) (tp : ThreadPool) (evt : MessageEvent) :
    Except String (ThreadPool × List Effect) :=
  (tpRun fuel tp (.messageListener evt)).map fun r => (r.1, r.2.2)

/-- ThreadPool.executeCommand (see tpRun). -/
def ThreadPool.executeCommand (fuel : Nat) (tp : ThreadPool) (ce : CmdEvt) :
    Except String (ThreadPool × List Effect) :=
  (tpRun fuel tp (.executeCommand ce)).map fun r => (r.1, r.2.2)

/-- ThreadPool.sendMessageToRemote (see tpRun). -/
def ThreadPool.sendMessageToRemote (fuel : Nat) (tp : ThreadPool) (threadId : Option String)
    (data : MsgData) (transfer : JsValue) :
    Except String (ThreadPool × Bool × List Effect) :=
  tpRun fuel tp (.sendMessageToRemote threadId data transfer)

/-- The tail of ThreadPool.sendCommand once a target has been chosen: post the
command payload and reject the pending promise when the send reported
failure (the entry registered for the callback id is not removed). -/
def ThreadPool.sendCommandDispatch (fuel : Nat) (tp : ThreadPool) (name : String)
    (args : List JsValue) (thread : Option String) (callbackId : String) :
    Except String (ThreadPool × List Effect) := do
  let r ← ThreadPool.sendMessageToRemote fuel tp thread
    { cmd := some name, args := args, thread := thread, callbackId := some callbackId } .undefined
  if r.2.1 then
    .ok (r.1, r.2.2)
  else
    .ok (r.1, r.2.2 ++
      [.reject callbackId (.errorObj ("Unable to send to thread, " ++ jsKey thread))])

/-- ThreadPool.sendCommand: mints a correlation id, registers the pending
callback, then: unknown local name rejects with Invalid Command; a unit with
hasRemotes() false would execute locally (passing executeCommand a plain
object rather than an event); otherwise a null target is replaced by the next
round-robin key, an explicit target absent from the sibling map rejects with
Invalid Thread, and the payload is posted. -/
def ThreadPool.sendCommand (fuel : Nat) (tp0 : ThreadPool) (name : String)
    (args : List JsValue) (thread : Option String) :
    Except String (ThreadPool × List Effect) :=
  let callbackId := getUniqueId tp0.gen
  let tp := { tp0 with gen := tp0.gen + 1,
                       callbacks := registerCallbackId tp0.callbacks callbackId }
  if !(objGet tp.commands name).isSome then
    .ok (tp, [.reject callbackId (.errorObj "Invalid Command")])
  else if !(hasRemotes tp.remotes) then do
    let r ← ThreadPool.executeCommand fuel tp
      (.fromObject { thread := tp.id, cmd := some name, args := args,
                     callbackId := some callbackId })
    .ok r
  else
    match thread with
    | none =>
      let sel := getNextRemoteKey tp.remotes tp.remoteKey
      ThreadPool.sendCommandDispatch fuel { tp with remoteKey := sel.2 } name args sel.1 callbackId
    | some t =>
      if !(objGet tp.remotes t).isSome then
        .ok (tp, [.reject callbackId (.errorObj "Invalid Thread")])
      else
        ThreadPool.sendCommandDispatch fuel tp name args (some t) callbackId

/-- ThreadPool.registerCommand: `this.commands[name] = fn` (a non-function
argument throws before this assignment; handlers here are typed). -/
def ThreadPool.registerCommand (tp : ThreadPool) (name : String) (fn : CommandHandler) :
    ThreadPool :=
  { tp with commands := objSet tp.commands name fn }

/-- RemoteWorker.js state: the controller-side handle of one spawned unit.
`worker` is whether the spawn handle is still held (null after terminate);
`threads` maps sibling id to the MessageChannel this handle created for that
pair (channels tagged by allocation number). -/
structure RemoteWorker where
  worker : Bool
  id : String
  threads : List (String × Nat)
  listeners : List (String × ListenerFn)

/-- `for (const x of obj)` over a plain JS object: object literals have no
Symbol.iterator, so for...of throws a TypeError before any iteration happens,
even when the object is empty. -/
def iterErrMsg : String := "TypeError: object is not iterable"

/-- See iterErrMsg. -/
def jsForOfPlainObject {α : Type} (_obj : List (String × α)) : Except String (List α) :=
  .error iterErrMsg

/-- RemoteWorker.postMessage: dropped silently once the spawn handle is gone,
otherwise posted into the worker context together with any transferred
ports. -/
def RemoteWorker.postMessage (w : RemoteWorker) (data : MsgData) (ports : List Nat) :
    List Effect :=
  if w.worker then [.postWorker w.id data ports] else []

/-- RemoteWorker.registerRemoteThread: duplicate sibling ids throw; otherwise
a fresh MessageChannel (tag `chan`, ports 2*chan and 2*chan+1) is stored under
the sibling.s id, the sibling receives a listen message with port 1 and this
handle.s own worker receives a remote announcement with port 2. -/
def RemoteWorker.registerRemoteThread (self other : RemoteWorker) (chan : Nat) :
    Except String (RemoteWorker × List Effect) :=
  if (objGet self.threads other.id).isSome then
    .error ("Worker thread, " ++ other.id ++ ", is already registered")
  else
    .ok ({ self with threads := objSet self.threads other.id chan },
      RemoteWorker.postMessage other { listen := some self.id } [2 * chan] ++
      RemoteWorker.postMessage self { remote := some other.id } [2 * chan + 1])

/-- RemoteWorker.terminate: `for (const thread of this.threads)` iterates a
plain object with for...of, which throws a TypeError immediately; the port
stops, the worker.terminate() call and the state reset below the loop are
never reached.  (Were the loop entered, `thread.port1.stop()` would also fail:
the loop variable would be a MessageChannel and MessagePort has no stop().) -/
def RemoteWorker.terminate (w : RemoteWorker) : Except String RemoteWorker := do
  let _threads ← jsForOfPlainObject w.threads
  pure { w with worker := false, listeners := [], threads := [] }

/-- WorkerPool.js state (class WorkerCluster): the device-facing controller.
Its id is the master id; `remotes` maps unit id to its RemoteWorker handle. -/
structure WorkerCluster where
  id : String := MASTER_THREAD
  httpAuthorization : Option String := none
  httpAccessToken : Option String := none
  remotes : List (String × RemoteWorker) := []
  callbacks : List String := []
  remoteKey : Nat := 0
  listeners : List (String × ListenerFn) := []

/-- RemoteAwareMixin.sendMessageToRemote as instantiated by the cluster: a
known sibling id gets the payload stamped with the master id, deep-copied and
posted through the RemoteWorker handle; an unknown id returns false. -/
def WorkerCluster.sendMessageToRemote (wc : WorkerCluster) (threadId : Option String)
    (data : MsgData) : Bool × List Effect :=
  match objGet wc.remotes (jsKey threadId) with
  | some w =>
    (true, w.postMessage (jsonCleanData { data with thread := some wc.id }) [])
  | none => (false, [])

/-- RemoteAwareMixin.broadcast as instantiated by the cluster:
`for (const key in this.remotes) this.sendMessageToRemote(key, data)`. -/
def WorkerCluster.broadcast (wc : WorkerCluster) (data : MsgData) : List Effect :=
  ((wc.remotes.map Prod.fst).map fun key => (wc.sendMessageToRemote (some key) data).2).flatten

/-- WorkerCluster.messageListener: a truthy returnId correlates a command
result; everything else goes to the generic listeners. -/
def WorkerCluster.messageListener (wc : WorkerCluster) (evt : MessageEvent) :
    Except String (WorkerCluster × List Effect) :=
  if strTruthy evt.data.returnId then
    let r := receiveCommandResult wc.callbacks evt
    .ok ({ wc with callbacks := r.1 }, r.2)
  else
    let r := executeMessageListeners wc.listeners evt
    match r.2 with
    | none => .ok (wc, r.1)
    | some m => .error m

/-- WorkerCluster.setHttpAuthorization: records the credential and broadcasts
`{setHttpAuthorization: auth}` to every unit.  (The field name broadcast here
is what claim C5 is about: workers match on `setHttpAuth`.) -/
def WorkerCluster.setHttpAuthorization (wc0 : WorkerCluster) (auth : String) :
    WorkerCluster × List Effect :=
  let wc := { wc0 with httpAuthorization := some auth }
  (wc, wc.broadcast { setHttpAuthorization := some auth })

/-- WorkerCluster.setHttpAccessToken: records the token and broadcasts
`{setHttpAccessToken: accessToken}`. -/
def WorkerCluster.setHttpAccessToken (wc0 : WorkerCluster) (accessToken : String) :
    WorkerCluster × List Effect :=
  let wc := { wc0 with httpAccessToken := some accessToken }
  (wc, wc.broadcast { setHttpAccessToken := some accessToken })

/-- The body of WorkerCluster.terminate for one present id: terminate the
handle (which raises, see RemoteWorker.terminate), then — unreachably — drop
it from the sibling map and broadcast the removal notice. -/
def WorkerCluster.terminateOne (wc : WorkerCluster) (i : String) :
    Except String (WorkerCluster × List Effect) :=
  match objGet wc.remotes i with
  | some w => do
    let _ ← w.terminate
    let wc2 := { wc with remotes := objDelete wc.remotes i }
    .ok (wc2, wc2.broadcast { remote := some i, terminate := true })
  | none => .ok (wc, [])

/-- The no-id branch of WorkerCluster.terminate: `for (const id in
this.remotes) this.terminate(id)` — one self-call per key, in order. -/
def WorkerCluster.terminateKeys : WorkerCluster → List String →
    Except String (WorkerCluster × List Effect)
  | wc, [] => .ok (wc, [])
  | wc, k :: ks => do
    let r ← wc.terminateOne k
    let r2 ← WorkerCluster.terminateKeys r.1 ks
    .ok (r2.1, r.2 ++ r2.2)

/-- WorkerCluster.terminate: without an id every unit is terminated in key
order; with an id only that handle (a no-op for an unknown id). -/
def WorkerCluster.terminate (wc : WorkerCluster) (id : Option String) :
    Except String (WorkerCluster × List Effect) :=
  match id with
  | none => WorkerCluster.terminateKeys wc (wc.remotes.map Prod.fst)
  | some i => wc.terminateOne i

/-- The RemoteWorker constructor: spawns the unit, initializes an empty thread
map, mints a fresh id and immediately posts the identity assignment. -/
def newRemoteWorker (gen : Nat) : RemoteWorker × Nat × List Effect :=
  let id := getUniqueId gen
  ({ worker := true, id := id, threads := [], listeners := [] }, gen + 1,
   [.postWorker id { ident := some id } []])

/-- WorkerCluster.initializeWorker: attaches the cluster.s messageListener to
the new handle (the listener id comes from the shared getUniqueId counter; the
callback itself is opaque to the worker and modelled as well behaved) and
replays any already-set credential or access token to the new worker. -/
def WorkerCluster.initializeWorker (wc : WorkerCluster) (w0 : RemoteWorker) (gen : Nat) :
    RemoteWorker × Nat × List Effect :=
  let lid := getUniqueId gen
  let w := { w0 with
    listeners := w0.listeners ++ [(lid, (fun _ => Except.ok Unit.unit : ListenerFn))] }
  (w, gen + 1,
   (if strTruthy wc.httpAuthorization then
      [Effect.postWorker w.id { setHttpAuthorization := wc.httpAuthorization } []]
    else []) ++
   (if strTruthy wc.httpAccessToken then
      [Effect.postWorker w.id { setHttpAccessToken := wc.httpAccessToken } []]
    else []))

/-- Result of cross-wiring a new handle against every existing handle. -/
structure CrossWireOut where
  remotes : List (String × RemoteWorker)
  worker : RemoteWorker
  gen : Nat
  effects : List Effect

/-- The loop of WorkerCluster.registerRemoteThread: for each existing handle,
`remote.registerRemoteThread(worker)` then `worker.registerRemoteThread(remote)`,
each allocating its own MessageChannel. -/
def crossWire : List (String × RemoteWorker) → RemoteWorker → Nat →
    Except String CrossWireOut
  | [], w, gen => .ok ⟨[], w, gen, []⟩
  | (rid, r) :: rest, w, gen => do
    let r1 ← r.registerRemoteThread w gen
    let w1 ← w.registerRemoteThread r (gen + 1)
    let rst ← crossWire rest w1.1 (gen + 2)
    .ok ⟨(rid, r1.1) :: rst.remotes, rst.worker, rst.gen, r1.2 ++ w1.2 ++ rst.effects⟩

/-- WorkerCluster.registerRemoteThread: cross-wire the new handle against
every already-registered handle, then store it under its id. -/
def WorkerCluster.registerRemoteThread (wc : WorkerCluster) (worker : RemoteWorker)
    (gen : Nat) : Except String (WorkerCluster × Nat × List Effect) := do
  let cw ← crossWire wc.remotes worker gen
  .ok ({ wc with remotes := objSet cw.remotes cw.worker.id cw.worker }, cw.gen, cw.effects)

/-- WorkerCluster.spawn: constructs, initializes and registers one new unit,
then decrements the requested count and recurses while it is still positive —
so a request for 0 (or any non-positive count) still spawns exactly one. -/
def WorkerCluster.spawn : WorkerCluster → Int → Nat →
    Except String (WorkerCluster × Nat × List Effect)
  | wc, numWorkers, gen =>
    let s1 := newRemoteWorker gen
    let s2 := wc.initializeWorker s1.1 s1.2.1
    do
      let r ← wc.registerRemoteThread s2.1 s2.2.1
      let n2 := numWorkers - 1
      if n2 > 0 then do
        let r2 ← WorkerCluster.spawn r.1 n2 r.2.1
        .ok (r2.1, r2.2.1, s1.2.2 ++ s2.2.2 ++ r.2.2 ++ r2.2.2)
      else
        .ok (r.1, r.2.1, s1.2.2 ++ s2.2.2 ++ r.2.2)
termination_by _wc n _gen => n.toNat
decreasing_by
  simp_wf
  omega

/-- The WorkerCluster constructor: sets the master id and spawns the requested
number of workers (three when unspecified) starting from an empty mesh. -/
def newWorkerCluster (numWorkers : Int) (gen : Nat) :
    Except String (WorkerCluster × Nat × List Effect) :=
  WorkerCluster.spawn {} numWorkers gen

/-- The echo command of the round-trip property: `(thread, x) => x`. -/
def echoHandler : CommandHandler :=
  fun _thread args => args.getD 0 .undefined

/-- The repaired echo command: `(thread, x) => [x]`, returning the
`[data, transferable]` pair executeCommand.s response path destructures. -/
def echoPairHandler : CommandHandler :=
  fun _thread args => .arr [args.getD 0 .undefined]

/-- Worker "a" of the two-unit round-trip scenario: identity assigned, echo
registered, cross-wired with sibling "b" (hears it on port 10, posts to it on
port 11). -/
def tpA : ThreadPool :=
  { id := some "a", ports := [("b", 10)], commands := [("echo", echoHandler)],
    remotes := [("b", 11)] }

/-- Worker "b" of the round-trip scenario: the other end of the pair (hears
"a" on port 20, posts to it on port 21). -/
def tpB : ThreadPool :=
  { id := some "b", ports := [("a", 20)], commands := [("echo", echoHandler)],
    remotes := [("a", 21)] }

/-- A worker with its identity assigned, echo registered, and an empty sibling
map — the zero-sibling configuration of the local-execution property. -/
def tpNoSiblings : ThreadPool :=
  { id := some "w", commands := [("echo", echoHandler)] }

/-- A worker with one sibling and echo registered, used to send a command to
the explicit master id. -/
def tpToMaster : ThreadPool :=
  { id := some "a", commands := [("echo", echoHandler)], remotes := [("b", 2)] }

/-- A worker that never registered any command. -/
def tpNoCommands : ThreadPool :=
  { id := some "w" }

/-- A live unit handle with id "w1" and no channels yet. -/
def rwW1 : RemoteWorker :=
  { worker := true, id := "w1", threads := [], listeners := [] }

/-- A cluster holding exactly the unit "w1". -/
def wcOne : WorkerCluster :=
  { remotes := [("w1", rwW1)] }

/-- The worker-side coordinator of unit "w1", identity assigned, no ambient
credential yet. -/
def tpW1 : ThreadPool :=
  { id := some "w1" }

/-- A listener that always throws. -/
def throwingListener : ListenerFn :=
  fun _ => .error "boom"

/-- A listener that returns normally. -/
def okListener : ListenerFn :=
  fun _ => .ok ()

/-- A concrete inbound event with no protocol fields, dispatched to the
generic listeners. -/
def plainEvt : MessageEvent :=
  { data := { data := some (.num 7) } }

/-- Iterate getNextRemoteKey: the selected keys of `count` consecutive
round-robin selections from a given cursor, with the final cursor. -/
def rrRun {ρ : Type} (remotes : List (String × ρ)) : Nat → Nat → List (Option String) × Nat
  | c, 0 => ([], c)
  | c, count + 1 =>
    let s := getNextRemoteKey remotes c
    let r := rrRun remotes s.2 count
    (s.1 :: r.1, r.2)

/-- Whether a string occurs anywhere in the cluster as a unit id: as a sibling
map key or as a thread key inside some handle.  Freshly minted ids must avoid
these to make cross-wiring collision-free. -/
def idMentioned (wc : WorkerCluster) (s : String) : Bool :=
  (objGet wc.remotes s).isSome || wc.remotes.any fun p => (objGet p.2.threads s).isSome

/-- The state a cluster reachable by spawning is always in: every id the
generator will still mint is unused, sibling-map keys are distinct, and each
handle is stored under its own id. -/
def clusterInv (wc : WorkerCluster) (gen : Nat) : Prop :=
  (∀ j, gen ≤ j → idMentioned wc (getUniqueId j) = false) ∧
  (wc.remotes.map Prod.fst).Nodup ∧
  (∀ p ∈ wc.remotes, p.2.id = p.1)

/-- Worker "a" immediately after issuing the echo command: the correlation id
is pending and the realm counter has advanced. -/
def tpASent : ThreadPool :=
  { tpA with gen := 1, callbacks := [getUniqueId 0] }

/-- The command payload that crosses the channel from "a" to "b" in the
round-trip run (sender stamped, deep-copied). -/
def cmdMsgAB : MsgData :=
  { cmd := some "echo", args := [.num 42], thread := some "a",
    callbackId := some (getUniqueId 0) }

/-- The response payload "b" posts back: the echo handler returned the bare
value 42, which the response path could not destructure. -/
def replyMsgBA : MsgData :=
  { thread := some "b", returnId := some (getUniqueId 0),
    error := some (.str destructureErrMsg), previousEvent := some .emptyObj }

/-- The configuration-push payload the cluster actually broadcasts for an
authorization update. -/
def authPushMsg : MsgData :=
  { thread := some MASTER_THREAD, setHttpAuthorization := some "secret" }

/-!  Theorems.  General lemmas about the embedded operations come first, then
one theorem per claim of the specification, each with its witness where the
statement carries hypotheses. -/

/-- hasRemotes never reports an empty sibling map: `.length` on the plain
object is undefined (or a MessagePort), never the number 0. -/
theorem hasRemotes_true {ρ : Type} (remotes : List (String × ρ)) :
    hasRemotes remotes = true := by
  unfold hasRemotes
  cases objGet remotes "length" <;> rfl

/-- A key is retrievable exactly when it occurs among the keys. -/
theorem objGet_isSome_iff {α : Type} (m : List (String × α)) (k : String) :
    (objGet m k).isSome = true ↔ k ∈ m.map Prod.fst := by
  unfold objGet
  have hsome : ((List.find? (fun p => p.1 == k) m).map Prod.snd).isSome
      = (List.find? (fun p => p.1 == k) m).isSome := by
    cases List.find? (fun p => p.1 == k) m <;> rfl
  rw [hsome, List.find?_isSome]
  simp [List.mem_map, beq_iff_eq]

/-- Looking up in an appended map falls through to the right part only when
the left part misses. -/
theorem objGet_append {α : Type} (m1 m2 : List (String × α)) (k : String) :
    objGet (m1 ++ m2) k = (objGet m1 k).or (objGet m2 k) := by
  unfold objGet
  rw [List.find?_append]
  cases List.find? (fun p => p.1 == k) m1 <;> rfl

/-- Setting an absent key appends it. -/
theorem objSet_of_absent {α : Type} (m : List (String × α)) (k : String) (v : α)
    (h : (objGet m k).isSome = false) : objSet m k v = m ++ [(k, v)] := by
  simp [objSet, h]

/-- The registered callback id is in the table afterwards. -/
theorem mem_registerCallbackId (callbacks : List String) (callbackId : String) :
    callbackId ∈ registerCallbackId callbacks callbackId := by
  unfold registerCallbackId
  by_cases h : callbacks.contains callbackId
  · rw [if_pos h]
    exact List.elem_iff.mp h
  · rw [if_neg h]
    exact List.mem_append_right _ (List.mem_singleton.mpr rfl)

/-- JSON round trip leaves a number unchanged. -/
@[simp] theorem jsonCleanVal_num (n : Int) : jsonCleanVal (.num n) = .num n := by
  simp [jsonCleanVal]

/-- JSON round trip leaves a string unchanged. -/
@[simp] theorem jsonCleanVal_str (s : String) : jsonCleanVal (.str s) = .str s := by
  simp [jsonCleanVal]

/-- JSON round trip of undefined (dropped by jsonCleanOpt at field level). -/
@[simp] theorem jsonCleanVal_undefined : jsonCleanVal .undefined = .undefined := by
  simp [jsonCleanVal]

/-- JSON round trip leaves a plain empty object unchanged. -/
@[simp] theorem jsonCleanVal_emptyObj : jsonCleanVal .emptyObj = .emptyObj := by
  simp [jsonCleanVal]

/-- A live Error JSON-serializes to a plain empty object. -/
@[simp] theorem jsonCleanVal_errorObj (m : String) : jsonCleanVal (.errorObj m) = .emptyObj := by
  simp [jsonCleanVal]

/-- JSON round trip of an array, with the attach plumbing removed. -/
@[simp] theorem jsonCleanVal_arr (xs : List JsValue) :
    jsonCleanVal (.arr xs) = .arr (xs.map fun x =>
      match jsonCleanVal x with
      | .undefined => .null
      | v => v) := by
  rw [jsonCleanVal]
  congr 1
  exact List.attach_map_val xs _ |>.symm ▸ rfl

/-- C1: the spec claims the echo round trip — registerCommand with
`(thread, x) => x`, then sendCommand with [42] — resolves to 42.  On the code
it does not: the response path destructures the handler.s settled value as
`[data, transferable]`, and 42 is not iterable, so the executing sibling
posts back a TypeError and the caller.s future is rejected.  The three
conjuncts retrace the run: "a" posts the command to its sibling "b"; "b"
executes echo and posts back an error response; "a" correlates it and
rejects — never resolves — the pending future. -/
theorem roundTrip_echo_rejects :
    ThreadPool.sendCommand 9 tpA "echo" [.num 42] none =
      .ok (tpASent, [.postPort 11 cmdMsgAB]) ∧
    ThreadPool.messageListener 9 tpB { data := cmdMsgAB } =
      .ok (tpB, [.postPort 21 replyMsgBA]) ∧
    ThreadPool.messageListener 9 tpASent { data := replyMsgBA } =
      .ok ({ tpASent with callbacks := [] },
        [.deleteCallback (getUniqueId 0),
         .reject (getUniqueId 0) (.str destructureErrMsg)]) := by
  refine ⟨?_, ?_, rfl⟩
  · simp only [ThreadPool.sendCommand, ThreadPool.sendCommandDispatch,
      ThreadPool.sendMessageToRemote, tpRun, jsonCleanData, jsonCleanOpt, jsonCleanVal_num,
      List.map]
    rfl
  · simp only [ThreadPool.messageListener, tpRun, jsonCleanData, jsonCleanOpt, jsonCleanVal_num,
      jsonCleanVal_str, jsonCleanVal_emptyObj, List.map]
    rfl

/-- C2: the spec claims a worker with an empty sibling map always executes
sendCommand locally, never attempting network delivery, regardless of any
explicit target.  On the code hasRemotes() is true even for an empty map
(first conjunct), so the local branch is dead: with no explicit target the
round-robin key is undefined, the network send fails and the future rejects
with an Unable-to-send error (second conjunct); with an explicit target the
sibling-map check rejects with Invalid Thread (third conjunct).  Neither run
executes the locally registered command. -/
theorem zeroSiblings_sendCommand_attempts_network :
    hasRemotes tpNoSiblings.remotes = true ∧
    ThreadPool.sendCommand 9 tpNoSiblings "echo" [.num 42] none =
      .ok ({ tpNoSiblings with gen := 1, callbacks := [getUniqueId 0] },
        [.reject (getUniqueId 0) (.errorObj "Unable to send to thread, undefined")]) ∧
    ThreadPool.sendCommand 9 tpNoSiblings "echo" [.num 42] (some "w2") =
      .ok ({ tpNoSiblings with gen := 1, callbacks := [getUniqueId 0] },
        [.reject (getUniqueId 0) (.errorObj "Invalid Thread")]) :=
  ⟨rfl, rfl, rfl⟩

/-- C4: the spec claims terminate() completes without raising, closing every
channel and clearing listener and sibling state.  On the code the cleanup loop
is `for (const thread of this.threads)` over a plain object, which throws a
TypeError before anything is closed, released or cleared — for every handle,
channels or not (first conjunct) — and the cluster.s terminate propagates the
same exception for any registered id (second conjunct). -/
theorem terminate_always_throws :
    (∀ w : RemoteWorker, RemoteWorker.terminate w = .error iterErrMsg) ∧
    (∀ (wc : WorkerCluster) (i : String) (w : RemoteWorker),
      objGet wc.remotes i = some w →
      WorkerCluster.terminateOne wc i = .error iterErrMsg) := by
  constructor
  · intro w
    rfl
  · intro wc i w h
    unfold WorkerCluster.terminateOne
    rw [h]
    rfl

/-- Witness for C4.s theorem at a concrete handle and cluster. -/
theorem terminate_always_throws_witness :
    RemoteWorker.terminate rwW1 = .error iterErrMsg ∧
    WorkerCluster.terminateOne wcOne "w1" = .error iterErrMsg :=
  ⟨terminate_always_throws.1 rwW1, terminate_always_throws.2 wcOne "w1" rwW1 rfl⟩

/-- C5: the spec claims the credential push broadcast by
setHttpAuthorization is recognized by every worker.s state machine, updating
its ambient HTTP Basic field.  On the code the controller broadcasts the
field name `setHttpAuthorization` (first conjunct) while the worker state
machine only matches `setHttpAuth`, so the message falls through to the
generic listeners and the worker.s httpAuth field — none before (third
conjunct) — is left unchanged (second conjunct). -/
theorem setHttpAuthorization_not_recognized :
    WorkerCluster.setHttpAuthorization wcOne "secret" =
      ({ wcOne with httpAuthorization := some "secret" },
       [.postWorker "w1" authPushMsg []]) ∧
    ThreadPool.messageListener 9 tpW1 { data := authPushMsg } = .ok (tpW1, []) ∧
    tpW1.httpAuth = none :=
  ⟨rfl, rfl, rfl⟩

/-- C3 counterexample: with two registered listeners of which the first
throws, dispatch invokes only the first and propagates the exception — the
remaining listener is not run and the exception is not swallowed, refuting
the claim that a throwing listener never prevents the rest from running. -/
theorem dispatch_throwing_listener_counterexample :
    executeMessageListeners [("a", throwingListener), ("b", okListener)] plainEvt =
      ([.invokeListener "a" plainEvt], some "boom") :=
  rfl

/-- C3 amended: dispatch invokes listeners in registration order with the
same event value, but only up to the first listener that throws: when none
throws every listener runs (first conjunct); when one throws, exactly the
preceding listeners and the thrower itself have run and its exception
propagates to the caller (second conjunct). -/
theorem dispatch_listeners_characterization :
    (∀ (listeners : List (String × ListenerFn)) (evt : MessageEvent),
      (∀ p ∈ listeners, p.2 evt = .ok ()) →
      executeMessageListeners listeners evt =
        (listeners.map fun p => .invokeListener p.1 evt, none)) ∧
    (∀ (pre : List (String × ListenerFn)) (idx : String) (fn : ListenerFn)
       (post : List (String × ListenerFn)) (evt : MessageEvent) (m : String),
      (∀ p ∈ pre, p.2 evt = .ok ()) → fn evt = .error m →
      executeMessageListeners (pre ++ (idx, fn) :: post) evt =
        ((pre.map fun p => .invokeListener p.1 evt) ++ [.invokeListener idx evt],
         some m)) := by
  constructor
  · intro listeners evt h
    induction listeners with
    | nil => rfl
    | cons hd tl ih =>
      obtain ⟨idx, fn⟩ := hd
      have hfn : fn evt = .ok () := h (idx, fn) (List.mem_cons_self _ _)
      have htl := ih fun p hp => h p (List.mem_cons_of_mem _ hp)
      simp [executeMessageListeners, hfn, htl]
  · intro pre idx fn post evt m hpre hfn
    induction pre with
    | nil => simp [executeMessageListeners, hfn]
    | cons hd tl ih =>
      obtain ⟨i2, f2⟩ := hd
      have hf2 : f2 evt = .ok () := hpre (i2, f2) (List.mem_cons_self _ _)
      have htl := ih fun p hp => hpre p (List.mem_cons_of_mem _ hp)
      simp [executeMessageListeners, hf2, htl]

/-- Witness for C3.s amended theorem: a singleton well-behaved listener list
is dispatched completely. -/
theorem dispatch_listeners_characterization_witness :
    executeMessageListeners [("a", okListener)] plainEvt =
      ([.invokeListener "a" plainEvt], none) :=
  dispatch_listeners_characterization.1 [("a", okListener)] plainEvt
    (by intro p hp; rw [List.mem_singleton] at hp; subst hp; rfl)

/-- C6 counterexample: a command whose name is not registered settles its
future immediately (the Invalid-Command rejection is the only effect), yet
its pending-callback entry is still in the table afterwards — refuting the
claim that no entry remains after the future has settled. -/
theorem pendingCallback_leak_counterexample :
    ThreadPool.sendCommand 9 tpNoCommands "nope" [] none =
      .ok ({ tpNoCommands with gen := 1, callbacks := [getUniqueId 0] },
        [.reject (getUniqueId 0) (.errorObj "Invalid Command")]) ∧
    ({ tpNoCommands with gen := 1, callbacks := [getUniqueId 0] } : ThreadPool).callbacks =
      [getUniqueId 0] :=
  ⟨rfl, rfl⟩

/-- receiveCommandResult on a pending correlation id: entry removed first,
then the promise settled (reject on a truthy error field, resolve on data). -/
theorem receiveCommandResult_pending (cbs : List String) (rid : String)
    (err dat : Option JsValue) (hmem : rid ∈ cbs) :
    receiveCommandResult cbs { data := { returnId := some rid, error := err, data := dat } } =
      (cbs.erase rid,
       [.deleteCallback rid,
        if valTruthy err then .reject rid (err.getD .undefined)
        else .resolve rid (dat.getD .undefined)]) := by
  have hcont : cbs.contains rid = true := List.elem_iff.mpr hmem
  unfold receiveCommandResult
  simp [jsKey, hcont]
  exact hmem

/-- receiveCommandResult on an unknown correlation id is a no-op. -/
theorem receiveCommandResult_absent (cbs : List String) (rid : String)
    (err dat : Option JsValue) (hmem : rid ∉ cbs) :
    receiveCommandResult cbs { data := { returnId := some rid, error := err, data := dat } } =
      (cbs, []) := by
  have hcont : cbs.contains rid = false := by
    cases hc : cbs.contains rid
    · rfl
    · exact absurd (List.elem_iff.mp hc) hmem
  unfold receiveCommandResult
  simp [jsKey, hcont]
  exact hmem

/-- isThisThread is false whenever the key, if a present string, is a sibling
key and the unit.s own id is never in its own sibling map. -/
theorem isThisThread_false_of_selfFree (selfId : Option String)
    (remotes : List (String × Nat)) (t : Option String)
    (hself : ∀ i, selfId = some i → (objGet remotes i).isSome = false)
    (ht : ∀ s, t = some s → s ∈ remotes.map Prod.fst) :
    isThisThread selfId t = false := by
  cases selfId with
  | none => cases t <;> rfl
  | some a =>
    cases t with
    | none => rfl
    | some b =>
      unfold isThisThread
      cases hab : a == b
      · exact hab
      · exfalso
        have hb : a = b := by simpa using hab
        subst hb
        have h1 := hself a rfl
        have h2 := (objGet_isSome_iff remotes a).mpr (ht a rfl)
        rw [h1] at h2
        cases h2

/-- The send phase of sendCommand never throws and never touches the
pending-callback table: whichever way the payload is routed (to the master,
to a live sibling, or to an unreachable key, which only rejects the promise),
the table of the resulting state is the caller.s table. -/
theorem sendCommandDispatch_ok (f : Nat) (tp : ThreadPool) (name : String)
    (args : List JsValue) (target : Option String) (cid : String)
    (hnotself : isThisThread tp.id target = false) :
    ∃ r : ThreadPool × List Effect,
      ThreadPool.sendCommandDispatch (f + 1) tp name args target cid = .ok r ∧
      r.1.callbacks = tp.callbacks := by
  unfold ThreadPool.sendCommandDispatch ThreadPool.sendMessageToRemote
  by_cases hm : isMasterThread target
  · simp only [tpRun, hm, if_true]
    exact ⟨_, rfl, rfl⟩
  · simp only [tpRun, hm, hnotself, hasRemotes_true, Bool.false_or, Bool.not_true, if_false,
      Bool.or_self, if_neg, Bool.false_eq_true]
    cases hg : objGet tp.remotes (jsKey target) with
    | some port =>
      simp only [hg]
      exact ⟨_, rfl, rfl⟩
    | none =>
      simp only [hg]
      exact ⟨_, rfl, rfl⟩

/-- Every sendCommand call — whatever target and outcome — succeeds (given
stack room and a unit that is not its own sibling) and leaves exactly the
freshly registered correlation id pending in the table. -/
theorem sendCommand_registersCallback (f : Nat) (tp : ThreadPool) (name : String)
    (args : List JsValue) (target : Option String)
    (hself : ∀ i, tp.id = some i → (objGet tp.remotes i).isSome = false) :
    ∃ r : ThreadPool × List Effect,
      ThreadPool.sendCommand (f + 1) tp name args target = .ok r ∧
      r.1.callbacks = registerCallbackId tp.callbacks (getUniqueId tp.gen) ∧
      getUniqueId tp.gen ∈ r.1.callbacks := by
  unfold ThreadPool.sendCommand
  by_cases hcmd : (objGet tp.commands name).isSome
  · simp only [hcmd, Bool.not_true, if_false, hasRemotes_true, Bool.not_false, if_true,
      Bool.false_eq_true, if_neg, Bool.true_eq_false]
    cases target with
    | none =>
      have hns : isThisThread tp.id (getNextRemoteKey tp.remotes tp.remoteKey).1 = false := by
        apply isThisThread_false_of_selfFree tp.id tp.remotes _ hself
        intro s hs
        unfold getNextRemoteKey at hs
        simp only at hs
        exact List.get?_mem hs
      obtain ⟨r, hr, hcb⟩ := sendCommandDispatch_ok f
        { tp with gen := tp.gen + 1,
                  callbacks := registerCallbackId tp.callbacks (getUniqueId tp.gen),
                  remoteKey := (getNextRemoteKey tp.remotes tp.remoteKey).2 }
        name args (getNextRemoteKey tp.remotes tp.remoteKey).1 (getUniqueId tp.gen) hns
      refine ⟨r, hr, hcb, ?_⟩
      rw [hcb]
      exact mem_registerCallbackId _ _
    | some t =>
      by_cases htr : (objGet tp.remotes t).isSome
      · have hmem : t ∈ tp.remotes.map Prod.fst := (objGet_isSome_iff _ _).mp htr
        have hns : isThisThread tp.id (some t) = false := by
          apply isThisThread_false_of_selfFree tp.id tp.remotes _ hself
          intro s hs
          cases hs
          exact hmem
        obtain ⟨r, hr, hcb⟩ := sendCommandDispatch_ok f
          { tp with gen := tp.gen + 1,
                    callbacks := registerCallbackId tp.callbacks (getUniqueId tp.gen) }
          name args (some t) (getUniqueId tp.gen) hns
        simp only [htr, Bool.not_true, Bool.false_eq_true, if_neg, if_false]
        refine ⟨r, hr, hcb, ?_⟩
        rw [hcb]
        exact mem_registerCallbackId _ _
      · simp only [htr, Bool.not_false, if_true]
        exact ⟨_, rfl, rfl, mem_registerCallbackId _ _⟩
  · simp only [hcmd, Bool.not_false, if_true]
    exact ⟨_, rfl, rfl, mem_registerCallbackId _ _⟩

/-- C6 amended: a pending-callback entry is created for every command sent
(first conjunct: whatever the target and routing outcome, the freshly minted
correlation id is pending in the resulting table); when a result or error
message bearing a pending correlation id arrives, the entry is removed, is
then no longer present, and a second arrival of the same id is a no-op —
removal happens exactly once (second conjunct).  The amendment, forced by the
counterexample: entries whose futures are rejected locally before any send
(Invalid Command, Invalid Thread, failed delivery) are never removed, so an
entry can outlive its settled future. -/
theorem pendingCallback_lifecycle :
    (∀ (f : Nat) (tp : ThreadPool) (name : String) (args : List JsValue)
       (target : Option String),
      (∀ i, tp.id = some i → (objGet tp.remotes i).isSome = false) →
      ∃ r : ThreadPool × List Effect,
        ThreadPool.sendCommand (f + 1) tp name args target = .ok r ∧
        r.1.callbacks = registerCallbackId tp.callbacks (getUniqueId tp.gen) ∧
        getUniqueId tp.gen ∈ r.1.callbacks) ∧
    (∀ (cbs : List String) (rid : String) (err dat : Option JsValue),
      cbs.Nodup → rid ∈ cbs →
      (receiveCommandResult cbs
          { data := { returnId := some rid, error := err, data := dat } }).1 = cbs.erase rid ∧
      rid ∉ (receiveCommandResult cbs
          { data := { returnId := some rid, error := err, data := dat } }).1 ∧
      receiveCommandResult
          (receiveCommandResult cbs
            { data := { returnId := some rid, error := err, data := dat } }).1
          { data := { returnId := some rid, error := err, data := dat } } =
        ((receiveCommandResult cbs
            { data := { returnId := some rid, error := err, data := dat } }).1, [])) := by
  constructor
  · intro f tp name args target hself
    exact sendCommand_registersCallback f tp name args target hself
  · intro cbs rid err dat hN hmem
    have h1 := receiveCommandResult_pending cbs rid err dat hmem
    refine ⟨by rw [h1], ?_, ?_⟩
    · rw [h1]
      exact hN.not_mem_erase
    · rw [h1]
      exact receiveCommandResult_absent _ _ _ _ hN.not_mem_erase

/-- Witness for C6.s amended theorem: the creation conjunct at a concrete
unit and the removal conjuncts at a concrete table. -/
theorem pendingCallback_lifecycle_witness :
    (∃ r : ThreadPool × List Effect,
      ThreadPool.sendCommand 1 tpNoCommands "nope" [] none = .ok r ∧
      r.1.callbacks = registerCallbackId tpNoCommands.callbacks (getUniqueId tpNoCommands.gen) ∧
      getUniqueId tpNoCommands.gen ∈ r.1.callbacks) ∧
    ((receiveCommandResult (["x"] : List String)
        { data := { returnId := some "x", error := none, data := none } }).1 =
          (["x"] : List String).erase "x" ∧
     "x" ∉ (receiveCommandResult (["x"] : List String)
        { data := { returnId := some "x", error := none, data := none } }).1 ∧
     receiveCommandResult
        (receiveCommandResult (["x"] : List String)
          { data := { returnId := some "x", error := none, data := none } }).1
        { data := { returnId := some "x", error := none, data := none } } =
       ((receiveCommandResult (["x"] : List String)
          { data := { returnId := some "x", error := none, data := none } }).1, [])) :=
  ⟨pendingCallback_lifecycle.1 0 tpNoCommands "nope" [] none (by intro i hi; rfl),
   pendingCallback_lifecycle.2 ["x"] "x" none none (by decide) (by decide)⟩

/-- C8: the command-result handler.s contract: on a pending correlation id
the entry is deleted first and its action invoked second (the effect order in
the run), rejecting exactly when the error field is present (a truthy value —
the code always transmits non-empty stringified errors or Error objects) and
resolving with the data field otherwise, after which the id is no longer
pending; an id with no pending entry produces no state change and no effect
(and the handler is total — it cannot throw), so late or duplicate responses
are dropped silently. -/
theorem receiveCommandResult_spec (cbs : List String) (rid : String)
    (err dat : Option JsValue) (hN : cbs.Nodup)
    (hT : ∀ e, err = some e → jsTruthy e = true) :
    (rid ∈ cbs →
      receiveCommandResult cbs { data := { returnId := some rid, error := err, data := dat } } =
        (cbs.erase rid,
         [.deleteCallback rid,
          match err with
          | some e => .reject rid e
          | none => .resolve rid (dat.getD .undefined)]) ∧
      rid ∉ cbs.erase rid) ∧
    (rid ∉ cbs →
      receiveCommandResult cbs { data := { returnId := some rid, error := err, data := dat } } =
        (cbs, [])) := by
  constructor
  · intro hmem
    refine ⟨?_, hN.not_mem_erase⟩
    rw [receiveCommandResult_pending cbs rid err dat hmem]
    cases err with
    | none => simp [valTruthy, jsTruthy]
    | some e =>
      have ht := hT e rfl
      simp [valTruthy, ht]
  · intro hmem
    exact receiveCommandResult_absent cbs rid err dat hmem

/-- Witness for C8.s theorem: a pending id resolved with its data at a
concrete two-entry table. -/
theorem receiveCommandResult_spec_witness :
    (["x", "y"] : List String).Nodup ∧
    (receiveCommandResult ["x", "y"]
        { data := { returnId := some "x", error := none, data := some (.num 7) } } =
      ((["x", "y"] : List String).erase "x",
       [.deleteCallback "x", .resolve "x" (.num 7)]) ∧
     "x" ∉ (["x", "y"] : List String).erase "x") :=
  ⟨by decide,
   (receiveCommandResult_spec ["x", "y"] "x" none (some (.num 7)) (by decide)
     (by intro e he; cases he)).1 (by decide)⟩

/-- C9 amended: at the messaging layer the controller id is routed straight
to the spawning context — for every worker state and payload, regardless of
the sibling map, sendMessageToRemote posts to the master channel and consults
no sibling entry (first conjunct).  But sendCommand.s explicit-target check
consults only the sibling map, which never holds the controller id, so
sendCommand with MASTER_THREAD rejects with Invalid Thread and sends nothing
(second conjunct) — it does not reach the controller. -/
theorem master_routing :
    (∀ (f : Nat) (tp : ThreadPool) (data : MsgData) (transfer : JsValue),
      ThreadPool.sendMessageToRemote (f + 1) tp (some MASTER_THREAD) data transfer =
        .ok (tp, true,
          [.postMaster (if jsonCopyCond transfer
                        then jsonCleanData { data with thread := tp.id }
                        else { data with thread := tp.id })])) ∧
    (∀ (f : Nat) (tp : ThreadPool) (name : String) (args : List JsValue),
      (objGet tp.remotes MASTER_THREAD).isSome = false →
      (objGet tp.commands name).isSome = true →
      ThreadPool.sendCommand (f + 1) tp name args (some MASTER_THREAD) =
        .ok ({ tp with gen := tp.gen + 1,
                       callbacks := registerCallbackId tp.callbacks (getUniqueId tp.gen) },
          [.reject (getUniqueId tp.gen) (.errorObj "Invalid Thread")])) := by
  constructor
  · intro f tp data transfer
    rfl
  · intro f tp name args h1 h2
    unfold ThreadPool.sendCommand
    simp only [h2, Bool.not_true, if_false, hasRemotes_true, Bool.not_false, if_true,
      Bool.false_eq_true, if_neg, Bool.true_eq_false, h1]

/-- Witness for C9.s amended theorem at a concrete worker. -/
theorem master_routing_witness :
    ThreadPool.sendMessageToRemote 1 tpToMaster (some MASTER_THREAD)
        { data := some (.num 5) } .undefined =
      .ok (tpToMaster, true,
        [.postMaster (if jsonCopyCond .undefined
                      then jsonCleanData
                        { ({ data := some (.num 5) } : MsgData) with thread := tpToMaster.id }
                      else { ({ data := some (.num 5) } : MsgData) with thread := tpToMaster.id })]) ∧
    (objGet tpToMaster.remotes MASTER_THREAD).isSome = false ∧
    ThreadPool.sendCommand 1 tpToMaster "echo" [] (some MASTER_THREAD) =
      .ok ({ tpToMaster with gen := 1, callbacks := [getUniqueId 0] },
        [.reject (getUniqueId 0) (.errorObj "Invalid Thread")]) :=
  ⟨master_routing.1 0 tpToMaster { data := some (.num 5) } .undefined, rfl,
   master_routing.2 0 tpToMaster "echo" [] rfl rfl⟩

/-- getNextRemoteKey from an in-range cursor: returns the key under the
cursor and advances it by one, modulo the number of siblings. -/
theorem getNextRemoteKey_of_lt {ρ : Type} (remotes : List (String × ρ)) (c : Nat)
    (h : c < remotes.length) :
    getNextRemoteKey remotes c =
      ((remotes.map Prod.fst).get? c, (c + 1) % remotes.length) := by
  unfold getNextRemoteKey
  simp only [List.length_map]
  by_cases hc : (c : Int) ≥ (remotes.length : Int) - 1
  · rw [if_pos hc]
    have h2 : c + 1 = remotes.length := by omega
    rw [h2, Nat.mod_self]
  · rw [if_neg hc]
    have h2 : c + 1 < remotes.length := by omega
    rw [Nat.mod_eq_of_lt h2]

/-- Closed form of m consecutive round-robin selections from an in-range
cursor: selection i yields the key at position (c+i) mod k, and the cursor
ends at (c+m) mod k. -/
theorem rrRun_closed {ρ : Type} (remotes : List (String × ρ)) :
    ∀ (m c : Nat), c < remotes.length →
      rrRun remotes c m =
        ((List.range m).map fun i => (remotes.map Prod.fst).get? ((c + i) % remotes.length),
         (c + m) % remotes.length) := by
  intro m
  induction m with
  | zero =>
    intro c hc
    simp [rrRun, Nat.mod_eq_of_lt hc]
  | succ k ih =>
    intro c hc
    have hpos : 0 < remotes.length := by omega
    have hstep := getNextRemoteKey_of_lt remotes c hc
    have hlt : (c + 1) % remotes.length < remotes.length := Nat.mod_lt _ hpos
    have ihh := ih ((c + 1) % remotes.length) hlt
    simp only [rrRun, hstep, ihh]
    simp only [Prod.mk.injEq]
    constructor
    · rw [List.range_succ_eq_map]
      simp only [List.map_cons, List.map_map]
      congr 1
      · simp [Nat.mod_eq_of_lt hc]
      · apply List.map_congr_left
        intro i _
        simp only [Function.comp]
        rw [Nat.mod_add_mod]
        have h3 : c + 1 + i = c + (i + 1) := by omega
        rw [h3]
    · rw [Nat.mod_add_mod]
      have h3 : c + 1 + k = c + (k + 1) := by omega
      rw [h3]

/-- C7: over a fixed sibling set of size k and any reachable cursor, the
cursor advances by one per selection, wrapping to zero after the last sibling
(first conjunct); k consecutive selections return exactly the rotation of the
key list starting at the cursor (second conjunct), returning the cursor to
its starting point (third conjunct); the k selected keys are a permutation of
the sibling keys (fourth conjunct) and, the keys of a JS object being
distinct, contain no duplicate — each sibling is visited exactly once (fifth
conjunct). -/
theorem roundRobin_cycle {ρ : Type} (remotes : List (String × ρ)) (c : Nat)
    (h : c < remotes.length) :
    (∀ c2, c2 < remotes.length →
      (getNextRemoteKey remotes c2).2 = (c2 + 1) % remotes.length) ∧
    (rrRun remotes c remotes.length).1 =
      ((remotes.map Prod.fst).rotate c).map some ∧
    (rrRun remotes c remotes.length).2 = c ∧
    (rrRun remotes c remotes.length).1.Perm ((remotes.map Prod.fst).map some) ∧
    ((remotes.map Prod.fst).Nodup → (rrRun remotes c remotes.length).1.Nodup) := by
  have hpos : 0 < remotes.length := by omega
  have hrun := rrRun_closed remotes remotes.length c h
  have hkl : (remotes.map Prod.fst).length = remotes.length := List.length_map _ _
  have houts : (rrRun remotes c remotes.length).1 =
      ((remotes.map Prod.fst).rotate c).map some := by
    rw [hrun]
    dsimp only
    apply List.ext_get?
    intro n
    by_cases hn : n < remotes.length
    · rw [List.get?_map, List.get?_map, List.get?_range hn,
          List.get?_rotate (show n < (remotes.map Prod.fst).length by rw [hkl]; exact hn)]
      rw [hkl, Nat.add_comm n c]
      have hj : (c + n) % remotes.length < (remotes.map Prod.fst).length := by
        rw [hkl]
        exact Nat.mod_lt _ hpos
      simp only [Option.map_some']
      rw [List.get?_eq_get hj]
      rfl
    · have h1 : ((List.range remotes.length).map
          fun i => (remotes.map Prod.fst).get? ((c + i) % remotes.length)).get? n = none := by
        rw [List.get?_eq_none, List.length_map, List.length_range]
        omega
      have h2 : (((remotes.map Prod.fst).rotate c).map some).get? n = none := by
        rw [List.get?_eq_none, List.length_map, List.length_rotate, hkl]
        omega
      rw [h1, h2]
  refine ⟨?_, houts, ?_, ?_, ?_⟩
  · intro c2 hc2
    rw [getNextRemoteKey_of_lt remotes c2 hc2]
  · rw [hrun]
    dsimp only
    rw [Nat.add_mod_right, Nat.mod_eq_of_lt h]
  · rw [houts]
    exact (List.rotate_perm (remotes.map Prod.fst) c).map some
  · intro hnd
    rw [houts]
    exact (List.nodup_rotate.mpr hnd).map (Option.some_injective _)

/-- Witness for C7.s theorem: three siblings, cursor 1 — the selections are
b, c, a and the cursor returns to 1. -/
theorem roundRobin_cycle_witness :
    1 < ([("a", 0), ("b", 1), ("c", 2)] : List (String × Nat)).length ∧
    (rrRun ([("a", 0), ("b", 1), ("c", 2)] : List (String × Nat)) 1 3).1 =
      [some "b", some "c", some "a"] ∧
    (rrRun ([("a", 0), ("b", 1), ("c", 2)] : List (String × Nat)) 1 3).2 = 1 := by
  have h := roundRobin_cycle ([("a", 0), ("b", 1), ("c", 2)] : List (String × Nat)) 1
    (by decide)
  exact ⟨by decide, h.2.1.trans (by decide), h.2.2.1⟩

/-- C9 counterexample: a worker with a live sibling and the command
registered sends to the explicit controller id and is rejected with Invalid
Thread — the command is not dispatched to the controller, refuting the claim
that sendCommand with MASTER_THREAD reaches the controller.s handler path. -/
theorem sendCommand_master_rejects_counterexample :
    ThreadPool.sendCommand 9 tpToMaster "echo" [] (some MASTER_THREAD) =
      .ok ({ tpToMaster with gen := 1, callbacks := [getUniqueId 0] },
        [.reject (getUniqueId 0) (.errorObj "Invalid Thread")]) :=
  rfl

/-- Length of the unary counter rendering. -/
theorem unaryRepr_length (n : Nat) : (unaryRepr n).length = n := by
  induction n with
  | zero => rfl
  | succ k ih =>
    have h1 : ("1" : String).length = 1 := rfl
    simp [unaryRepr, String.length_append, ih, h1]
    omega

/-- Distinct counter values mint distinct identifiers. -/
theorem getUniqueId_injective : Function.Injective getUniqueId := by
  intro i j hij
  have h1 := congrArg String.length hij
  simp only [getUniqueId, String.length_append, unaryRepr_length] at h1
  omega

/-- A lookup whose isSome is false is none. -/
theorem objGet_eq_none_of_isSome_false {α : Type} (m : List (String × α)) (k : String)
    (h : (objGet m k).isSome = false) : objGet m k = none := by
  cases hg : objGet m k
  · rfl
  · rw [hg] at h
    cases h

/-- A singleton map misses every other key. -/
theorem objGet_singleton_ne {α : Type} (k1 k2 : String) (v : α) (h : k1 ≠ k2) :
    objGet [(k1, v)] k2 = none := by
  simp only [objGet, List.find?]
  rw [beq_eq_false_iff_ne.mpr h]
  rfl

/-- Bind on a successful Except computation runs the continuation. -/
theorem exbind_ok {eps alpha beta : Type} (x : alpha) (f : alpha → Except eps beta) :
    (Except.ok x >>= f) = f x := rfl

/-- Cross-wiring a fresh handle (its id in no thread map, its own thread map
missing every existing key) against a well-formed sibling list succeeds and
describes the result: same sibling keys, the new handle gains every sibling
as a thread key, every sibling gains the new handle.s id, and the channel
allocator only grows. -/
theorem crossWire_ok :
    ∀ (rs : List (String × RemoteWorker)) (w : RemoteWorker) (gen : Nat),
      (∀ p ∈ rs, (objGet p.2.threads w.id).isSome = false) →
      (∀ p ∈ rs, (objGet w.threads p.1).isSome = false) →
      (∀ p ∈ rs, p.2.id = p.1) →
      (rs.map Prod.fst).Nodup →
      ∃ out : CrossWireOut,
        crossWire rs w gen = .ok out ∧
        out.remotes.map Prod.fst = rs.map Prod.fst ∧
        out.worker.id = w.id ∧
        out.worker.worker = w.worker ∧
        out.worker.threads.map Prod.fst = w.threads.map Prod.fst ++ rs.map Prod.fst ∧
        gen ≤ out.gen ∧
        (∀ q ∈ out.remotes, ∃ p ∈ rs, q.1 = p.1 ∧ q.2.id = p.2.id ∧ q.2.worker = p.2.worker ∧
          q.2.threads.map Prod.fst = p.2.threads.map Prod.fst ++ [w.id]) := by
  intro rs
  induction rs with
  | nil =>
    intro w gen _ _ _ _
    refine ⟨⟨[], w, gen, []⟩, rfl, rfl, rfl, rfl, by simp, le_refl _, by simp⟩
  | cons hd tl ih =>
    intro w gen h1 h2 h3 h4
    obtain ⟨rid, r⟩ := hd
    have hr1 : (objGet r.threads w.id).isSome = false :=
      h1 (rid, r) (List.mem_cons_self _ _)
    have hrid : r.id = rid := h3 (rid, r) (List.mem_cons_self _ _)
    have hw1 : (objGet w.threads r.id).isSome = false := by
      rw [hrid]
      exact h2 (rid, r) (List.mem_cons_self _ _)
    have e1 : r.registerRemoteThread w gen =
        .ok ({ r with threads := objSet r.threads w.id gen },
          RemoteWorker.postMessage w { listen := some r.id } [2 * gen] ++
          RemoteWorker.postMessage r { remote := some w.id } [2 * gen + 1]) := by
      unfold RemoteWorker.registerRemoteThread
      rw [hr1]
      rfl
    have e2 : w.registerRemoteThread r (gen + 1) =
        .ok ({ w with threads := objSet w.threads r.id (gen + 1) },
          RemoteWorker.postMessage r { listen := some w.id } [2 * (gen + 1)] ++
          RemoteWorker.postMessage w { remote := some r.id } [2 * (gen + 1) + 1]) := by
      unfold RemoteWorker.registerRemoteThread
      rw [hw1]
      rfl
    have hwset : objSet w.threads r.id (gen + 1) = w.threads ++ [(r.id, gen + 1)] :=
      objSet_of_absent _ _ _ hw1
    have hnotin : rid ∉ tl.map Prod.fst := by
      have := h4
      simp only [List.map_cons, List.nodup_cons] at this
      exact this.1
    have h1t : ∀ p ∈ tl,
        (objGet p.2.threads ({ w with threads := objSet w.threads r.id (gen + 1) } :
          RemoteWorker).id).isSome = false :=
      fun p hp => h1 p (List.mem_cons_of_mem _ hp)
    have h2t : ∀ p ∈ tl,
        (objGet ({ w with threads := objSet w.threads r.id (gen + 1) } :
          RemoteWorker).threads p.1).isSome = false := by
      intro p hp
      have hne : r.id ≠ p.1 := by
        rw [hrid]
        intro he
        exact hnotin (he ▸ List.mem_map_of_mem Prod.fst hp)
      have hgw : objGet w.threads p.1 = none :=
        objGet_eq_none_of_isSome_false _ _ (h2 p (List.mem_cons_of_mem _ hp))
      show (objGet (objSet w.threads r.id (gen + 1)) p.1).isSome = false
      rw [hwset, objGet_append, hgw, objGet_singleton_ne _ _ _ hne]
      rfl
    have h3t : ∀ p ∈ tl, p.2.id = p.1 := fun p hp => h3 p (List.mem_cons_of_mem _ hp)
    have h4t : (tl.map Prod.fst).Nodup := by
      simp only [List.map_cons, List.nodup_cons] at h4
      exact h4.2
    obtain ⟨out, hcw, hkeys, hid, hwork, hthr, hgen, hdetail⟩ :=
      ih { w with threads := objSet w.threads r.id (gen + 1) } (gen + 2) h1t h2t h3t h4t
    refine ⟨⟨(rid, { r with threads := objSet r.threads w.id gen }) :: out.remotes,
             out.worker, out.gen,
             (RemoteWorker.postMessage w { listen := some r.id } [2 * gen] ++
              RemoteWorker.postMessage r { remote := some w.id } [2 * gen + 1]) ++
             (RemoteWorker.postMessage r { listen := some w.id } [2 * (gen + 1)] ++
              RemoteWorker.postMessage w { remote := some r.id } [2 * (gen + 1) + 1]) ++
             out.effects⟩, ?_, ?_, ?_, ?_, ?_, ?_, ?_⟩
    · unfold crossWire
      rw [e1]
      simp only [exbind_ok]
      rw [e2]
      simp only [exbind_ok]
      rw [hcw]
      simp only [exbind_ok]
    · show ((rid, { r with threads := objSet r.threads w.id gen }) :: out.remotes).map Prod.fst
        = ((rid, r) :: tl).map Prod.fst
      rw [List.map_cons, List.map_cons, hkeys]
    · exact hid
    · exact hwork
    · show out.worker.threads.map Prod.fst = w.threads.map Prod.fst ++ (rid :: tl.map Prod.fst)
      rw [hthr]
      show ({ w with threads := objSet w.threads r.id (gen + 1) } :
        RemoteWorker).threads.map Prod.fst ++ tl.map Prod.fst = _
      rw [hwset]
      simp [hrid]
    · show gen ≤ out.gen
      omega
    · intro q hq
      rcases List.mem_cons.mp hq with hq1 | hq2
      · refine ⟨(rid, r), List.mem_cons_self _ _, ?_⟩
        subst hq1
        refine ⟨rfl, rfl, rfl, ?_⟩
        show (objSet r.threads w.id gen).map Prod.fst = r.threads.map Prod.fst ++ [w.id]
        rw [objSet_of_absent _ _ _ hr1]
        simp
      · obtain ⟨p, hp, hqp⟩ := hdetail q hq2
        exact ⟨p, List.mem_cons_of_mem _ hp, hqp⟩

/-- A lookup misses exactly when the key is not among the keys. -/
theorem objGet_isSome_false_iff {α : Type} (m : List (String × α)) (k : String) :
    (objGet m k).isSome = false ↔ k ∉ m.map Prod.fst := by
  rw [← objGet_isSome_iff]
  cases (objGet m k).isSome <;> simp

/-- Unpacking an unmentioned id: not a sibling key, in no thread map. -/
theorem idMentioned_false_elim (wc : WorkerCluster) (s : String)
    (h : idMentioned wc s = false) :
    (objGet wc.remotes s).isSome = false ∧
    ∀ p ∈ wc.remotes, (objGet p.2.threads s).isSome = false := by
  unfold idMentioned at h
  rw [Bool.or_eq_false_iff] at h
  refine ⟨h.1, ?_⟩
  intro p hp
  have h2 := List.any_eq_false.mp h.2 p hp
  cases hx : (objGet p.2.threads s).isSome
  · rfl
  · exact absurd hx h2

/-- One iteration of spawn from an invariant-respecting cluster: the
construct-initialize-register pipeline succeeds, adds exactly one unit to the
sibling map, advances the id counter, and re-establishes the invariant. -/
theorem spawn_step (wc : WorkerCluster) (gen : Nat) (hInv : clusterInv wc gen) :
    ∃ r : WorkerCluster × Nat × List Effect,
      wc.registerRemoteThread
        (wc.initializeWorker (newRemoteWorker gen).1 (newRemoteWorker gen).2.1).1
        (wc.initializeWorker (newRemoteWorker gen).1 (newRemoteWorker gen).2.1).2.1 = .ok r ∧
      r.1.remotes.length = wc.remotes.length + 1 ∧
      gen + 1 ≤ r.2.1 ∧
      clusterInv r.1 r.2.1 := by
  obtain ⟨hfresh, hnodup, hids⟩ := hInv
  have hmention := idMentioned_false_elim wc (getUniqueId gen) (hfresh gen (le_refl _))
  -- the worker being registered
  have h1 : ∀ p ∈ wc.remotes,
      (objGet p.2.threads
        ((wc.initializeWorker (newRemoteWorker gen).1 (newRemoteWorker gen).2.1).1).id).isSome
        = false := fun p hp => hmention.2 p hp
  have h2 : ∀ p ∈ wc.remotes,
      (objGet ((wc.initializeWorker (newRemoteWorker gen).1 (newRemoteWorker gen).2.1).1).threads
        p.1).isSome = false := fun p _ => rfl
  obtain ⟨out, hcw, hkeys, hid, hwork, hthr, hgen, hdetail⟩ :=
    crossWire_ok wc.remotes
      (wc.initializeWorker (newRemoteWorker gen).1 (newRemoteWorker gen).2.1).1
      ((wc.initializeWorker (newRemoteWorker gen).1 (newRemoteWorker gen).2.1).2.1)
      h1 h2 hids hnodup
  have hb : (wc.initializeWorker (newRemoteWorker gen).1 (newRemoteWorker gen).2.1).2.1
      = gen + 2 := rfl
  rw [hb] at hgen
  have hg : out.worker.id = getUniqueId gen := hid
  have hglen : out.remotes.length = wc.remotes.length := by
    have := congrArg List.length hkeys
    simpa [List.length_map] using this
  have hnotmem : getUniqueId gen ∉ out.remotes.map Prod.fst := by
    rw [hkeys]
    exact (objGet_isSome_false_iff _ _).mp hmention.1
  have habs : (objGet out.remotes out.worker.id).isSome = false := by
    rw [hg]
    exact (objGet_isSome_false_iff _ _).mpr hnotmem
  have hset : objSet out.remotes out.worker.id out.worker =
      out.remotes ++ [(out.worker.id, out.worker)] := objSet_of_absent _ _ _ habs
  refine ⟨({ wc with remotes := objSet out.remotes out.worker.id out.worker },
           out.gen, out.effects), ?_, ?_, ?_, ?_⟩
  · unfold WorkerCluster.registerRemoteThread
    rw [hcw]
    rfl
  · show (objSet out.remotes out.worker.id out.worker).length = wc.remotes.length + 1
    rw [hset]
    simp [hglen]
  · show gen + 1 ≤ out.gen
    omega
  · -- clusterInv of the new state at out.gen
    refine ⟨?_, ?_, ?_⟩
    · -- freshness
      intro j hj
      have hjo : out.gen ≤ j := hj
      have hjgen : gen ≤ j := by omega
      have hjne : getUniqueId j ≠ getUniqueId gen := by
        intro he
        have h5 := getUniqueId_injective he
        omega
      have hmj := idMentioned_false_elim wc (getUniqueId j) (hfresh j hjgen)
      have hjm : getUniqueId j ∉ wc.remotes.map Prod.fst :=
        (objGet_isSome_false_iff _ _).mp hmj.1
      unfold idMentioned
      rw [Bool.or_eq_false_iff]
      constructor
      · show (objGet (objSet out.remotes out.worker.id out.worker) (getUniqueId j)).isSome = false
        rw [hset]
        apply (objGet_isSome_false_iff _ _).mpr
        rw [List.map_append]
        intro hmem
        rcases List.mem_append.mp hmem with hm1 | hm2
        · rw [hkeys] at hm1
          exact hjm hm1
        · simp only [List.map_cons, List.map_nil, List.mem_singleton] at hm2
          rw [hg] at hm2
          exact hjne hm2
      · show List.any _ _ = false
        rw [List.any_eq_false]
        intro q hq
        show ¬(objGet q.2.threads (getUniqueId j)).isSome = true
        rw [hset] at hq
        rcases List.mem_append.mp hq with hq1 | hq2
        · obtain ⟨p, hp, _, _, _, hqthr⟩ := hdetail q hq1
          have hthreads : q.2.threads.map Prod.fst =
              p.2.threads.map Prod.fst ++ [getUniqueId gen] := by
            rw [hqthr]
            rfl
          intro hsome
          have hmemq := (objGet_isSome_iff _ _).mp hsome
          rw [hthreads] at hmemq
          rcases List.mem_append.mp hmemq with hm1 | hm2
          · have := (objGet_isSome_false_iff _ _).mp (hmj.2 p hp)
            exact this hm1
          · rw [List.mem_singleton] at hm2
            exact hjne hm2
        · rw [List.mem_singleton] at hq2
          subst hq2
          intro hsome
          have hmemq := (objGet_isSome_iff _ _).mp hsome
          rw [hthr] at hmemq
          have hnilthreads :
              (wc.initializeWorker (newRemoteWorker gen).1 (newRemoteWorker gen).2.1).1.threads
                = ([] : List (String × Nat)) := rfl
          rw [hnilthreads] at hmemq
          simp only [List.map_nil, List.nil_append] at hmemq
          exact hjm hmemq
    · -- keys nodup
      show ((objSet out.remotes out.worker.id out.worker).map Prod.fst).Nodup
      rw [hset, List.map_append]
      rw [List.nodup_append]
      refine ⟨by rw [hkeys]; exact hnodup, by simp, ?_⟩
      intro a ha hb
      simp only [List.map_cons, List.map_nil, List.mem_singleton] at hb
      rw [hkeys] at ha
      rw [hb, hg] at ha
      exact ((objGet_isSome_false_iff _ _).mp hmention.1) ha
    · -- ids
      intro q hq
      show q.2.id = q.1
      rw [hset] at hq
      rcases List.mem_append.mp hq with hq1 | hq2
      · obtain ⟨p, hp, hk, hi, _, _⟩ := hdetail q hq1
        rw [hi, hids p hp, hk]
      · rw [List.mem_singleton] at hq2
        subst hq2
        rfl

/-- C10: from any cluster state reachable by spawning (fresh ids unused,
distinct sibling keys, handles stored under their own ids — all true of a
newly constructed pool), spawn(n) succeeds and registers exactly max(1,
n.toNat) new execution units: one unit per iteration, and at least one even
for n = 0 or negative n, because the count is decremented only after the
first unit is spawned. -/
theorem spawn_registers_units :
    ∀ (n : Int) (wc : WorkerCluster) (gen : Nat), clusterInv wc gen →
      ∃ out : WorkerCluster × Nat × List Effect,
        WorkerCluster.spawn wc n gen = .ok out ∧
        out.1.remotes.length = wc.remotes.length + max 1 n.toNat := by
  suffices H : ∀ (m : Nat) (n : Int), n.toNat ≤ m → ∀ (wc : WorkerCluster) (gen : Nat),
      clusterInv wc gen →
      ∃ out : WorkerCluster × Nat × List Effect,
        WorkerCluster.spawn wc n gen = .ok out ∧
        out.1.remotes.length = wc.remotes.length + max 1 n.toNat by
    intro n wc gen h
    exact H n.toNat n (le_refl _) wc gen h
  intro m
  induction m with
  | zero =>
    intro n hn wc gen hInv
    obtain ⟨r, hreg, hlen, hgen, hInv2⟩ := spawn_step wc gen hInv
    have hn1 : ¬(n - 1 > 0) := by omega
    rw [WorkerCluster.spawn]
    dsimp only
    rw [hreg]
    simp only [exbind_ok]
    rw [if_neg hn1]
    refine ⟨_, rfl, ?_⟩
    show r.1.remotes.length = wc.remotes.length + max 1 n.toNat
    rw [hlen]
    have h3 : max 1 n.toNat = 1 := by omega
    rw [h3]
  | succ k ih =>
    intro n hn wc gen hInv
    obtain ⟨r, hreg, hlen, hgen, hInv2⟩ := spawn_step wc gen hInv
    rw [WorkerCluster.spawn]
    dsimp only
    rw [hreg]
    simp only [exbind_ok]
    by_cases h2 : n - 1 > 0
    · rw [if_pos h2]
      have hle : (n - 1).toNat ≤ k := by omega
      obtain ⟨out2, hsp2, hlen2⟩ := ih (n - 1) hle r.1 r.2.1 hInv2
      rw [hsp2]
      simp only [exbind_ok]
      refine ⟨_, rfl, ?_⟩
      show out2.1.remotes.length = wc.remotes.length + max 1 n.toNat
      rw [hlen2, hlen]
      have e1 : max 1 n.toNat = n.toNat := by omega
      have e2 : max 1 (n - 1).toNat = (n - 1).toNat := by omega
      rw [e1, e2]
      omega
    · rw [if_neg h2]
      refine ⟨_, rfl, ?_⟩
      show r.1.remotes.length = wc.remotes.length + max 1 n.toNat
      rw [hlen]
      have h3 : max 1 n.toNat = 1 := by omega
      rw [h3]

/-- Witness for C10.s theorem: constructing a pool with a requested count of
zero still spawns exactly one unit. -/
theorem spawn_registers_units_witness :
    clusterInv ({} : WorkerCluster) 0 ∧
    ∃ out : WorkerCluster × Nat × List Effect,
      WorkerCluster.spawn ({} : WorkerCluster) 0 0 = .ok out ∧
      out.1.remotes.length = ({} : WorkerCluster).remotes.length + max 1 (0 : Int).toNat := by
  have hInv : clusterInv ({} : WorkerCluster) 0 := by
    refine ⟨?_, ?_, ?_⟩
    · intro j _
      rfl
    · exact List.nodup_nil
    · intro p hp
      cases hp
  exact ⟨hInv, spawn_registers_units 0 {} 0 hInv⟩
